import Mathlib

/-!
Verification development for the academic-search query generator
(`src/main.py`).  The pipeline under study: a Streamlit session keeps a
conversation history, composes a platform-specific system instruction,
sends the payload to a remote completion service, and extracts an
explanation plus a list of `<query>...</query>`-delimited queries from the
assistant's reply.  Texts are modelled as `List Char`; Python string
operations (`str.find`, `str.strip`, `re.findall` with a non-greedy
pattern and `re.DOTALL`) are embedded as executable functions below.
-/

/-- Opening delimiter used by the extraction step (src/main.py line 245/255). -/
def openTag : List Char := "<query>".data

/-- Closing delimiter used by the extraction step (src/main.py line 255). -/
def closeTag : List Char := "</query>".data

/-- Index of the first occurrence of `pat` in `cs`, as in Python `str.find`
(returning `none` instead of `-1`). -/
def findSub (pat : List Char) : List Char → Option Nat
  | [] => if pat.isPrefixOf [] then some 0 else none
  | c :: cs =>
    if pat.isPrefixOf (c :: cs) then some 0
    else (findSub pat cs).map (· + 1)

/-- Whether `pat` occurs as a contiguous substring of `cs`. -/
def containsSub (pat cs : List Char) : Bool :=
  (findSub pat cs).isSome

/-- Fuel-indexed scan underlying `scanQueries`: find the next `openTag`,
then the nearest following `closeTag`, record the span between them and
continue after the closing delimiter.  This is the matching behaviour of
Python `re.findall(r"<query>(.*?)</query>", text, re.DOTALL)`
(src/main.py line 255): matches are non-overlapping, taken left to right,
each span ends at the nearest following closing delimiter, and spans may
contain line breaks. -/
def scanQueriesF : Nat → List Char → List (List Char)
  | 0, _ => []
  | fuel + 1, cs =>
    match findSub openTag cs with
    | none => []
    | some i =>
      match findSub closeTag (cs.drop (i + openTag.length)) with
      | none => []
      | some j =>
        (cs.drop (i + openTag.length)).take j ::
          scanQueriesF fuel ((cs.drop (i + openTag.length)).drop (j + closeTag.length))

/-- All raw (untrimmed) spans found by the delimiter scan of src/main.py
line 255.  Each completed scan step consumes at least the two delimiters,
so `cs.length` units of fuel always suffice. -/
def scanQueries (cs : List Char) : List (List Char) :=
  scanQueriesF cs.length cs

/-- Characters removed by Python `str.strip()` (ASCII whitespace). -/
def isSpace (c : Char) : Bool :=
  c == ' ' || c == '\t' || c == '\n' || c == '\r' || c == '\x0b' || c == '\x0c'

/-- Python `str.strip()`: remove leading and trailing whitespace. -/
def trim (cs : List Char) : List Char :=
  ((cs.dropWhile isSpace).reverse.dropWhile isSpace).reverse

/-- Derived result of parsing one assistant reply
(`latest_explanation` and `query_variations` in src/main.py). -/
structure ExtractionResult where
  explanation : List Char
  queries : List (List Char)
deriving DecidableEq

/-- Explanation part of the parse (src/main.py lines 245-250): the text
before the first `<query>` tag, stripped; if no tag is present the whole
stripped text. -/
def extractExplanation (cs : List Char) : List Char :=
  match findSub openTag cs with
  | some i => trim (cs.take i)
  | none => trim cs

/-- Full extraction step applied to one assistant reply
(src/main.py lines 244-257): explanation prefix plus the stripped
delimiter-enclosed spans. -/
def extract (cs : List Char) : ExtractionResult :=
  { explanation := extractExplanation cs
    queries := (scanQueries cs).map trim }

/-- Message role, as the `"role"` field of a history entry. -/
inductive Role where
  | system
  | user
  | assistant
deriving DecidableEq

/-- One conversation message (`{"role": ..., "content": ...}`). -/
structure Turn where
  role : Role
  content : List Char
deriving DecidableEq

/-- Supported search platforms (the selectbox options, src/main.py line 162). -/
inductive Platform where
  | JSTOR
  | GoogleScholar
deriving DecidableEq

/-- Platform name string used when formatting the instruction
(`st.session_state.search_platform`). -/
def platformName : Platform → List Char
  | Platform.JSTOR => "JSTOR".data
  | Platform.GoogleScholar => "Google Scholar".data

/-- MULTI_QUERY_INSTRUCTION (src/main.py lines 16-25) with
`{num_variations}` and `{platform_name}` substituted as by `str.format`
(src/main.py lines 212-215). -/
def MULTI_QUERY_INSTRUCTION_fmt (num_variations : Nat) (platform_name : List Char) : List Char :=
  "\nGenerate ".data ++ (Nat.repr num_variations).data
    ++ " distinct query variations based on the user's request below.\nUse the specific syntax rules for ".data
    ++ platform_name
    ++ ".\nProvide a brief general explanation first, then list the queries.\nEnclose *each* generated query within its own <query>...</query> tags, with each tag pair on a new line.\nExample for multiple queries:\nExplanation text...\n<query>Query 1 using ".data
    ++ platform_name
    ++ " syntax</query>\n<query>Query 2 using ".data
    ++ platform_name
    ++ " syntax</query>\n".data

/-- JSTOR_SYNTAX_RULES (src/main.py lines 28-36). -/
def JSTOR_SYNTAX_RULES : List Char := String.data
  ("\nYou are an AI search query generator designed to convert natural language research requests into JSTOR advanced search queries.\n"
    ++ "Your goal is to extract key subjects and to produce precise queries using field-specific terms and Boolean operators (AND, OR, NOT).\n"
    ++ "- Use AND to combine distinct concepts (narrows results). Must be uppercase.\n"
    ++ "- Use OR within parentheses `()` to group synonyms or related terms (broadens results). Must be uppercase.\n"
    ++ "- Use NOT to exclude terms (narrows results). Must be uppercase.\n"
    ++ "- Surround key subjects or phrases with parentheses `()` for clarity and grouping, especially with OR. Do NOT use \"\" or ''.\n"
    ++ "- Example: ((Fahrenheit 451) AND (Bradbury)) AND ((historical influence) OR (historical context) OR (historical factors))\n")

/-- GOOGLE_SCHOLAR_SYNTAX_RULES (src/main.py lines 40-52). -/
def GOOGLE_SCHOLAR_SYNTAX_RULES : List Char := String.data
  ("\nYou are an AI search query generator designed to convert natural language research requests into Google Scholar search queries.\n"
    ++ "Your goal is to extract key subjects and to produce precise queries using Google Scholar's operators.\n"
    ++ "- Use `AND` (or just spaces between terms) to find results containing all terms (narrows). AND must be uppercase if used explicitly.\n"
    ++ "- Use `OR` to find results containing either term (broadens). OR must be uppercase. Group with parentheses `()` if needed. Example: library (anxiety OR fear)\n"
    ++ "- Use the minus sign `-` immediately before a term to exclude it (narrows). Do NOT spell out NOT. No space after hyphen. Example: library anxiety -graduate\n"
    ++ "- Use `AROUND(n)` between terms to find them within 'n' words of each other (narrows). Must be uppercase. Example: library AROUND(5) graduate\n"
    ++ "- Use double quotes `\" \"` around exact phrases. Example: \"library anxiety\"\n"
    ++ "- Use `intitle:` before a term to find it in the article title. No space after colon. Example: intitle:anxiety\n"
    ++ "- Use `author:` before an author's name (in quotes) to find articles by them. No space after colon. Example: author:\"jane doe\"\n"
    ++ "- Use `source:` before a journal title (in quotes) to find articles in that publication. No space after colon. Example: source:\"nature communications\"\n"
    ++ "- The hyphen `-` can also connect words strongly: `decision-making`. No spaces around hyphen.\n")

/-- JSTOR_SYSTEM_PROMPT (src/main.py line 37). -/
def JSTOR_SYSTEM_PROMPT : List Char := JSTOR_SYNTAX_RULES

/-- GOOGLE_SCHOLAR_SYSTEM_PROMPT (src/main.py line 53). -/
def GOOGLE_SCHOLAR_SYSTEM_PROMPT : List Char := GOOGLE_SCHOLAR_SYNTAX_RULES

/-- Base system prompt selected by platform (src/main.py line 209). -/
def basePrompt : Platform → List Char
  | Platform.JSTOR => JSTOR_SYSTEM_PROMPT
  | Platform.GoogleScholar => GOOGLE_SCHOLAR_SYSTEM_PROMPT

/-- Content of the synthesized system message (src/main.py line 222):
base prompt, a newline, then the formatted multi-query instruction. -/
def composePrompt (p : Platform) (num_variations : Nat) : List Char :=
  basePrompt p ++ "\n".data ++ MULTI_QUERY_INSTRUCTION_fmt num_variations (platformName p)

/-- initialize_history (src/main.py lines 136-137). -/
def initialize_history : List Turn := []

/-- newMsgToHistory (src/main.py lines 116-122): append a user turn,
with no validation of the text. -/
def newMsgToHistory (msg : List Char) (history : List Turn) : List Turn :=
  history ++ [{ role := Role.user, content := msg }]

/-- Temporary per-request payload (src/main.py lines 219-227): the
synthesized system turn first, then the retained history with any system
turns filtered out. -/
def api_call_history (sysContent : List Char) (history : List Turn) : List Turn :=
  { role := Role.system, content := sysContent } ::
    history.filter (fun t => !(t.role == Role.system))

/-- Outcome of the network call inside `generate` (src/main.py lines 56-113).
`success content` is a response whose first choice carries an assistant
message with the given content; `noApiKey` is the missing-secret early
return (line 61); `failure` covers every handled failure: transport
errors and non-2xx statuses (RequestException, lines 98-103), a response
without usable choices (lines 90-96), an unparseable body
(JSONDecodeError, lines 104-108), and any other exception (lines 109-113). -/
inductive GenOutcome where
  | success (content : List Char)
  | noApiKey
  | failure

/-- Pop the trailing turn if it is a user turn, as `generate` does on every
failure path ("if history and history[-1]['role'] == 'user': history.pop()"). -/
def popUserIfLast (h : List Turn) : List Turn :=
  match h.getLast? with
  | some t => if t.role = Role.user then h.dropLast else h
  | none => h

/-- generate (src/main.py lines 56-113) as a function of the payload and
the network outcome: on success the assistant turn is appended to the
payload list and the list returned; on failure the trailing user turn is
popped from the payload list and the list returned; with no API key the
function returns None. -/
def generateModel (history : List Turn) : GenOutcome → Option (List Turn)
  | GenOutcome.success content => some (history ++ [{ role := Role.assistant, content := content }])
  | GenOutcome.noApiKey => none
  | GenOutcome.failure => some (popUserIfLast history)

/-- Mutable session data (`st.session_state`, src/main.py lines 144-153). -/
structure SessionState where
  history : List Turn
  latest_explanation : List Char
  query_variations : List (List Char)
  search_platform : Platform
  num_variations : Nat

/-- Commit phase of a submission (src/main.py lines 236-263): if the list
returned by `generate` is non-empty and ends with an assistant turn, that
turn is appended to the session history and parsed; otherwise the
explanation and query list are cleared.  `history1` is the session history
with the new user turn already appended. -/
def commitResponse (st : SessionState) (history1 : List Turn) :
    Option (List Turn) → SessionState
  | none =>
    { st with history := history1, latest_explanation := [], query_variations := [] }
  | some updated =>
    match updated.getLast? with
    | some t =>
      if t.role = Role.assistant then
        { st with
            history := history1 ++ [t]
            latest_explanation := (extract t.content).explanation
            query_variations := (extract t.content).queries }
      else
        { st with history := history1, latest_explanation := [], query_variations := [] }
    | none =>
      { st with history := history1, latest_explanation := [], query_variations := [] }

/-- One full submission (src/main.py lines 202-263): append the user turn,
build the temporary payload with the composed system instruction, run the
generation call with the given outcome, and commit the result. -/
def submitStep (st : SessionState) (inp : List Char) (oc : GenOutcome) : SessionState :=
  commitResponse st (newMsgToHistory inp st.history)
    (generateModel
      (api_call_history (composePrompt st.search_platform st.num_variations)
        (newMsgToHistory inp st.history))
      oc)

/-- Top-level input handling (src/main.py line 202): the submission body
runs only when `user_input` is truthy, so a missing or empty input leaves
the session untouched. -/
def handleInput (st : SessionState) (inp : Option (List Char)) (oc : GenOutcome) : SessionState :=
  match inp with
  | none => st
  | some s => if s = [] then st else submitStep st s oc

/-- Platform change (src/main.py lines 167-172): when the selected platform
differs from the stored one, the platform is updated and the explanation,
query list and history are cleared; otherwise nothing happens. -/
def changePlatform (st : SessionState) (p : Platform) : SessionState :=
  if p ≠ st.search_platform then
    { st with
        search_platform := p
        latest_explanation := []
        query_variations := []
        history := initialize_history }
  else st

/-- Model of the slider widget (src/main.py lines 176-182): a value
selected on a slider with `min_value=1, max_value=10` always lies in
[1,10]; modelled as clamping the requested value into that interval. -/
def num_variations_slider (selected : Nat) : Nat := min 10 (max 1 selected)

/-- Text built from a prefix and a list of framed pairs: used to state
what "a text containing exactly these delimiter pairs" means.  Each pair
`(p, s)` contributes its inter-pair filler `p`, the opening delimiter,
the span `s` and the closing delimiter; `tail` is the trailing rest. -/
def assemble : List (List Char × List Char) → List Char → List Char
  | [], tail => tail
  | (p, s) :: rest, tail => p ++ (openTag ++ (s ++ (closeTag ++ assemble rest tail)))

/-- Wrapping of one query for the round-trip property. -/
def wrap (q : List Char) : List Char := openTag ++ (q ++ closeTag)

/-! ### Basic facts about the substring search -/

theorem containsSub_false_iff (pat cs : List Char) :
    containsSub pat cs = false ↔ findSub pat cs = none := by
  unfold containsSub
  cases findSub pat cs <;> simp

theorem findSub_zero (pat cs : List Char) (h : pat.isPrefixOf cs = true) :
    findSub pat cs = some 0 := by
  cases cs <;> simp [findSub, h]

theorem findSub_le (pat : List Char) :
    ∀ (cs : List Char) (i : Nat), findSub pat cs = some i → i + pat.length ≤ cs.length := by
  intro cs
  induction cs with
  | nil =>
    intro i h
    by_cases hp : pat.isPrefixOf ([] : List Char) = true
    · simp only [findSub] at h
      rw [if_pos hp] at h
      injection h with h0
      have hpre : pat <+: ([] : List Char) := List.isPrefixOf_iff_prefix.mp hp
      have hlen : pat.length ≤ 0 := by simpa using hpre.length_le
      simp only [List.length_nil]
      omega
    · simp only [findSub] at h
      rw [if_neg hp] at h
      exact Option.noConfusion h
  | cons c cs ih =>
    intro i h
    by_cases hp : pat.isPrefixOf (c :: cs) = true
    · simp only [findSub] at h
      rw [if_pos hp] at h
      injection h with h0
      have hpre : pat <+: c :: cs := List.isPrefixOf_iff_prefix.mp hp
      have hlen := hpre.length_le
      simp only [List.length_cons] at hlen ⊢
      omega
    · simp only [findSub] at h
      rw [if_neg hp] at h
      cases hf : findSub pat cs with
      | none =>
        rw [hf] at h
        exact Option.noConfusion h
      | some i' =>
        rw [hf] at h
        simp only [Option.map_some'] at h
        injection h with h0
        have := ih i' hf
        simp only [List.length_cons]
        omega

theorem findSub_cons_none (pat : List Char) (c : Char) (cs : List Char)
    (h : findSub pat (c :: cs) = none) :
    pat.isPrefixOf (c :: cs) = false ∧ findSub pat cs = none := by
  by_cases hp : pat.isPrefixOf (c :: cs) = true
  · simp only [findSub] at h
    rw [if_pos hp] at h
    exact Option.noConfusion h
  · simp only [findSub] at h
    rw [if_neg hp] at h
    rw [Option.map_eq_none'] at h
    exact ⟨Bool.eq_false_iff.mpr hp, h⟩

/-- First-occurrence computation over an append: if `pat` does not occur in
`p`, has no proper border, and `rest` starts with `pat`, then the first
occurrence of `pat` in `p ++ rest` sits exactly at the boundary. -/
theorem findSub_append (pat : List Char)
    (hb : ∀ j, j < pat.length → 0 < j → ¬ (pat.drop j).isPrefixOf pat = true) :
    ∀ (p rest : List Char), findSub pat p = none → pat.isPrefixOf rest = true →
      findSub pat (p ++ rest) = some p.length := by
  intro p
  induction p with
  | nil =>
    intro rest _ hr
    simpa using findSub_zero pat rest hr
  | cons a p ih =>
    intro rest hp hr
    obtain ⟨hpf, hp'⟩ := findSub_cons_none pat a p hp
    by_cases hpre : pat.isPrefixOf (a :: (p ++ rest)) = true
    · exfalso
      have hprefix : pat <+: (a :: p) ++ rest := by
        simpa using List.isPrefixOf_iff_prefix.mp hpre
      by_cases hlen : pat.length ≤ (a :: p).length
      · have hpp : pat <+: a :: p :=
          List.prefix_of_prefix_length_le hprefix (List.prefix_append _ _) hlen
        rw [← List.isPrefixOf_iff_prefix] at hpp
        rw [hpf] at hpp
        exact Bool.noConfusion hpp
      · push_neg at hlen
        obtain ⟨t, htt⟩ := hprefix
        have hjle : (a :: p).length ≤ pat.length := Nat.le_of_lt hlen
        have hdrop : pat.drop (a :: p).length ++ t = rest := by
          have h1 := congrArg (List.drop (a :: p).length) htt
          rwa [List.drop_append_of_le_length hjle, List.drop_left] at h1
        have hd1 : pat.drop (a :: p).length <+: rest := ⟨t, hdrop⟩
        have hd2 : pat <+: rest := List.isPrefixOf_iff_prefix.mp hr
        have hd3 : pat.drop (a :: p).length <+: pat :=
          List.prefix_of_prefix_length_le hd1 hd2 (by simp)
        have hcontra := hb (a :: p).length hlen (by simp)
        rw [← List.isPrefixOf_iff_prefix] at hd3
        exact hcontra hd3
    · have hstep : findSub pat (a :: (p ++ rest)) = (findSub pat (p ++ rest)).map (· + 1) := by
        simp only [findSub]
        rw [if_neg hpre]
      rw [List.cons_append, hstep, ih rest hp' hr]
      rfl

theorem openTag_noBorder :
    ∀ j, j < openTag.length → 0 < j → ¬ (openTag.drop j).isPrefixOf openTag = true := by
  decide

theorem closeTag_noBorder :
    ∀ j, j < closeTag.length → 0 < j → ¬ (closeTag.drop j).isPrefixOf closeTag = true := by
  decide

/-! ### Unfolding lemmas for the delimiter scan -/

theorem scanQueriesF_nil : ∀ fuel, scanQueriesF fuel [] = [] := by
  intro fuel
  cases fuel with
  | zero => rfl
  | succ fuel => rfl

theorem scanQueriesF_irrel :
    ∀ (f1 f2 : Nat) (cs : List Char), cs.length ≤ f1 → cs.length ≤ f2 →
      scanQueriesF f1 cs = scanQueriesF f2 cs := by
  intro f1
  induction f1 with
  | zero =>
    intro f2 cs h1 _
    have hcs : cs = [] := List.length_eq_zero.mp (Nat.le_zero.mp h1)
    subst hcs
    rw [scanQueriesF_nil, scanQueriesF_nil]
  | succ f1 ih =>
    intro f2 cs h1 h2
    cases f2 with
    | zero =>
      have hcs : cs = [] := List.length_eq_zero.mp (Nat.le_zero.mp h2)
      subst hcs
      rw [scanQueriesF_nil, scanQueriesF_nil]
    | succ f2 =>
      cases h3 : findSub openTag cs with
      | none => simp only [scanQueriesF, h3]
      | some i =>
        cases h4 : findSub closeTag (cs.drop (i + openTag.length)) with
        | none => simp only [scanQueriesF, h3, h4]
        | some j =>
          simp only [scanQueriesF, h3, h4]
          have hop : openTag.length = 7 := rfl
          have hcl : closeTag.length = 8 := rfl
          have hb1 := findSub_le openTag cs i h3
          have hb2 := findSub_le closeTag _ j h4
          rw [List.length_drop, hop, hcl] at hb2
          rw [hop] at hb1
          have hXlen : ((cs.drop (i + openTag.length)).drop (j + closeTag.length)).length
              = cs.length - (i + 7) - (j + 8) := by
            rw [List.length_drop, List.length_drop, hop, hcl]
          rw [ih f2 _ (by rw [hXlen]; omega) (by rw [hXlen]; omega)]

theorem scanQueries_none (cs : List Char) (h : findSub openTag cs = none) :
    scanQueries cs = [] := by
  unfold scanQueries
  cases cs with
  | nil => rfl
  | cons c cs' =>
    rw [List.length_cons]
    simp only [scanQueriesF, h]

theorem scanQueries_no_close (cs : List Char) (i : Nat)
    (h1 : findSub openTag cs = some i)
    (h2 : findSub closeTag (cs.drop (i + openTag.length)) = none) :
    scanQueries cs = [] := by
  unfold scanQueries
  cases cs with
  | nil =>
    rw [show findSub openTag ([] : List Char) = none from rfl] at h1
    exact Option.noConfusion h1
  | cons c cs' =>
    rw [List.length_cons]
    simp only [scanQueriesF, h1, h2]

theorem scanQueries_cons (cs : List Char) (i j : Nat)
    (h1 : findSub openTag cs = some i)
    (h2 : findSub closeTag (cs.drop (i + openTag.length)) = some j) :
    scanQueries cs =
      (cs.drop (i + openTag.length)).take j ::
        scanQueries ((cs.drop (i + openTag.length)).drop (j + closeTag.length)) := by
  cases cs with
  | nil =>
    rw [show findSub openTag ([] : List Char) = none from rfl] at h1
    exact Option.noConfusion h1
  | cons c cs' =>
    unfold scanQueries
    rw [List.length_cons]
    simp only [scanQueriesF, h1, h2]
    congr 1
    have hop : openTag.length = 7 := rfl
    have hcl : closeTag.length = 8 := rfl
    have hb1 := findSub_le openTag _ i h1
    have hb2 := findSub_le closeTag _ j h2
    rw [List.length_cons, hop] at hb1
    rw [List.length_drop, List.length_cons, hop, hcl] at hb2
    have hXlen : (((c :: cs').drop (i + openTag.length)).drop (j + closeTag.length)).length
        = (cs'.length + 1) - (i + 7) - (j + 8) := by
      rw [List.length_drop, List.length_drop, List.length_cons, hop, hcl]
    apply scanQueriesF_irrel
    · rw [hXlen]; omega
    · exact Nat.le_refl _

/-! ### The scan over an explicitly assembled text -/

theorem scanQueries_assemble :
    ∀ (pairs : List (List Char × List Char)) (tail : List Char),
      (∀ x ∈ pairs, containsSub openTag x.1 = false) →
      (∀ x ∈ pairs, containsSub closeTag x.2 = false) →
      scanQueries tail = [] →
      scanQueries (assemble pairs tail) = pairs.map (fun x => x.2) := by
  intro pairs
  induction pairs with
  | nil =>
    intro tail _ _ ht
    simpa [assemble] using ht
  | cons x pairs ih =>
    intro tail hp hs ht
    obtain ⟨p, s⟩ := x
    have hpn : findSub openTag p = none :=
      (containsSub_false_iff _ _).mp (hp (p, s) (List.mem_cons_self _ _))
    have hsn : findSub closeTag s = none :=
      (containsSub_false_iff _ _).mp (hs (p, s) (List.mem_cons_self _ _))
    have h1 : findSub openTag (assemble ((p, s) :: pairs) tail) = some p.length := by
      show findSub openTag
        (p ++ (openTag ++ (s ++ (closeTag ++ assemble pairs tail)))) = some p.length
      exact findSub_append openTag openTag_noBorder p _ hpn
        (by rw [List.isPrefixOf_iff_prefix]; exact List.prefix_append _ _)
    have hdrop1 : (assemble ((p, s) :: pairs) tail).drop (p.length + openTag.length)
        = s ++ (closeTag ++ assemble pairs tail) := by
      show (p ++ (openTag ++ (s ++ (closeTag ++ assemble pairs tail)))).drop
        (p.length + openTag.length) = _
      rw [← List.append_assoc]
      exact List.drop_left' (by rw [List.length_append])
    have h2 : findSub closeTag
        ((assemble ((p, s) :: pairs) tail).drop (p.length + openTag.length)) = some s.length := by
      rw [hdrop1]
      exact findSub_append closeTag closeTag_noBorder s _ hsn
        (by rw [List.isPrefixOf_iff_prefix]; exact List.prefix_append _ _)
    have hdrop2 : (s ++ (closeTag ++ assemble pairs tail)).drop (s.length + closeTag.length)
        = assemble pairs tail := by
      rw [← List.append_assoc]
      exact List.drop_left' (by rw [List.length_append])
    rw [scanQueries_cons _ _ _ h1 h2, hdrop1, List.take_left' rfl, hdrop2,
      ih tail (fun y hy => hp y (List.mem_cons_of_mem _ hy))
        (fun y hy => hs y (List.mem_cons_of_mem _ hy)) ht]
    rfl

/-- Queries extracted from an assembled text are exactly the stripped spans. -/
theorem extract_assemble_queries (pairs : List (List Char × List Char)) (tail : List Char)
    (hp : ∀ x ∈ pairs, containsSub openTag x.1 = false)
    (hs : ∀ x ∈ pairs, containsSub closeTag x.2 = false)
    (ht : scanQueries tail = []) :
    (extract (assemble pairs tail)).queries = pairs.map (fun x => trim x.2) := by
  show (scanQueries (assemble pairs tail)).map trim = _
  rw [scanQueries_assemble pairs tail hp hs ht, List.map_map]
  rfl

theorem assemble_wrap_nil :
    ∀ (Q : List (List Char)),
      assemble (Q.map (fun q => (([] : List Char), q))) [] = (Q.map wrap).flatten := by
  intro Q
  induction Q with
  | nil => rfl
  | cons q Q ih =>
    simp only [List.map_cons, List.flatten_cons, assemble, ih, wrap]
    simp [List.append_assoc]

theorem trim_eq_nil (s : List Char) (h : ∀ c ∈ s, isSpace c = true) : trim s = [] := by
  unfold trim
  rw [List.dropWhile_eq_nil_iff.mpr h]
  rfl

/-! ### Claim theorems about the extraction step -/

/-- C1: for every input text containing exactly `k` well-formed,
non-overlapping `<query>...</query>` delimiter pairs — the text decomposes
into inter-pair fillers free of the opening delimiter, spans free of the
closing delimiter (so each span ends at its nearest following closing
delimiter and may contain line breaks), and a trailing rest in which the
scan completes no pair (in particular an unterminated opening) — the
extraction step returns a queries list of length `k`, in left-to-right
order of appearance, each element the corresponding inner span trimmed of
surrounding whitespace. -/
theorem extract_wellformed_pairs (pairs : List (List Char × List Char)) (tail : List Char)
    (hp : ∀ x ∈ pairs, containsSub openTag x.1 = false)
    (hs : ∀ x ∈ pairs, containsSub closeTag x.2 = false)
    (ht : scanQueries tail = []) :
    (extract (assemble pairs tail)).queries = pairs.map (fun x => trim x.2) ∧
    (extract (assemble pairs tail)).queries.length = pairs.length := by
  have h := extract_assemble_queries pairs tail hp hs ht
  exact ⟨h, by rw [h, List.length_map]⟩

/-- Witness for C1 at a concrete two-pair text with a multi-line span and
an unterminated trailing opening. -/
theorem extract_wellformed_pairs_witness :
    (extract (assemble
        [("Here is my reasoning.\n".data, "(novel) AND (author)".data),
          ("\n".data, " (b) OR\n(c) ".data)]
        "\n<query> unterminated tail".data)).queries
      = [("Here is my reasoning.\n".data, "(novel) AND (author)".data),
          ("\n".data, " (b) OR\n(c) ".data)].map (fun x => trim x.2) ∧
    (extract (assemble
        [("Here is my reasoning.\n".data, "(novel) AND (author)".data),
          ("\n".data, " (b) OR\n(c) ".data)]
        "\n<query> unterminated tail".data)).queries.length
      = [("Here is my reasoning.\n".data, "(novel) AND (author)".data),
          ("\n".data, " (b) OR\n(c) ".data)].length :=
  extract_wellformed_pairs _ _ (by decide) (by decide) (by decide)

/-- C4 counterexample: on a text with an opening delimiter but no closing
one, the extraction returns an empty queries list, but the explanation is
the trimmed prefix before the opening delimiter, not the entire trimmed
text as the claim states. -/
theorem extract_unterminated_explanation_counterexample :
    (extract "abc <query> def".data).queries = [] ∧
    (extract "abc <query> def".data).explanation ≠ trim "abc <query> def".data := by
  decide

/-- C4 (amended): for every text in which the scan completes no delimiter
pair, the queries list is empty; the explanation is the entire trimmed
text when the opening delimiter does not occur at all, and the trimmed
prefix before the first opening delimiter when an (unterminated) opening
occurs. -/
theorem extract_no_complete_pair (cs : List Char) (h : scanQueries cs = []) :
    (extract cs).queries = [] ∧
    (findSub openTag cs = none → (extract cs).explanation = trim cs) ∧
    (∀ i, findSub openTag cs = some i → (extract cs).explanation = trim (cs.take i)) := by
  refine ⟨?_, ?_, ?_⟩
  · show (scanQueries cs).map trim = []
    rw [h]
    rfl
  · intro hn
    show extractExplanation cs = trim cs
    unfold extractExplanation
    rw [hn]
  · intro i hi
    show extractExplanation cs = trim (cs.take i)
    unfold extractExplanation
    rw [hi]

/-- Witness for the amended C4 at a concrete unterminated-opening text:
the first opening delimiter sits at index 4 and no pair completes. -/
theorem extract_no_complete_pair_witness :
    scanQueries "pre <query> unterminated".data = [] ∧
    (extract "pre <query> unterminated".data).queries = [] ∧
    (extract "pre <query> unterminated".data).explanation
      = trim ("pre <query> unterminated".data.take 4) :=
  ⟨by decide,
    (extract_no_complete_pair "pre <query> unterminated".data (by decide)).1,
    (extract_no_complete_pair "pre <query> unterminated".data (by decide)).2.2 4 (by decide)⟩

/-- C7: round-trip — extracting a text made of an explanation prefix
(free of the opening delimiter) followed by each element of `Q` wrapped in
the delimiter pair yields exactly the elements of `Q`, in order, each
trimmed of surrounding whitespace. -/
theorem extract_roundtrip (pre : List Char) (Q : List (List Char))
    (hpre : containsSub openTag pre = false)
    (hq : ∀ q ∈ Q, q ≠ [] ∧ containsSub openTag q = false ∧ containsSub closeTag q = false) :
    (extract (pre ++ (Q.map wrap).flatten)).queries = Q.map trim := by
  cases Q with
  | nil =>
    have hn : findSub openTag pre = none := (containsSub_false_iff _ _).mp hpre
    show (scanQueries (pre ++ (List.map wrap []).flatten)).map trim = _
    simp only [List.map_nil, List.flatten_nil, List.append_nil]
    rw [scanQueries_none pre hn]
    rfl
  | cons q Q =>
    have hassem : assemble ((pre, q) :: Q.map (fun r => (([] : List Char), r))) []
        = pre ++ ((q :: Q).map wrap).flatten := by
      simp only [assemble, assemble_wrap_nil, List.map_cons, List.flatten_cons, wrap]
      simp [List.append_assoc]
    rw [← hassem]
    rw [extract_assemble_queries _ [] ?hp ?hs rfl]
    case hp =>
      intro x hx
      rcases List.mem_cons.mp hx with h | h
      · subst h
        exact hpre
      · obtain ⟨r, hr, rfl⟩ := List.mem_map.mp h
        rfl
    case hs =>
      intro x hx
      rcases List.mem_cons.mp hx with h | h
      · subst h
        exact (hq q (List.mem_cons_self _ _)).2.2
      · obtain ⟨r, hr, rfl⟩ := List.mem_map.mp h
        exact (hq r (List.mem_cons_of_mem _ hr)).2.2
    simp [List.map_map, Function.comp]

/-- Witness for C7 on a concrete prefix and two queries. -/
theorem extract_roundtrip_witness :
    (extract ("Okay.\n".data
      ++ (["alpha AND beta".data, " gamma\n".data].map wrap).flatten)).queries
      = ["alpha AND beta".data, " gamma\n".data].map trim :=
  extract_roundtrip _ _ (by decide) (by decide)

/-- C8: for every text containing no occurrence of either delimiter, the
extraction returns an empty queries list and the entire text trimmed of
surrounding whitespace as the explanation. -/
theorem extract_no_delimiters (cs : List Char)
    (ho : containsSub openTag cs = false)
    (_hc : containsSub closeTag cs = false) :
    (extract cs).queries = [] ∧ (extract cs).explanation = trim cs := by
  have hn : findSub openTag cs = none := (containsSub_false_iff _ _).mp ho
  constructor
  · show (scanQueries cs).map trim = []
    rw [scanQueries_none cs hn]
    rfl
  · show extractExplanation cs = trim cs
    unfold extractExplanation
    rw [hn]

/-- Witness for C8 on a concrete delimiter-free text. -/
theorem extract_no_delimiters_witness :
    (extract " just explanation text\nsecond line ".data).queries = [] ∧
    (extract " just explanation text\nsecond line ".data).explanation
      = trim " just explanation text\nsecond line ".data :=
  extract_no_delimiters _ (by decide) (by decide)

/-- C10: a well-formed pair whose inner span is whitespace-only (or empty)
contributes the empty string at its position in the queries list — it is
trimmed to the empty string and retained, never dropped, and the length of
the queries list counts every completed pair. -/
theorem extract_whitespace_span (pairs : List (List Char × List Char)) (tail : List Char)
    (i : Nat) (hi : i < pairs.length)
    (hp : ∀ x ∈ pairs, containsSub openTag x.1 = false)
    (hs : ∀ x ∈ pairs, containsSub closeTag x.2 = false)
    (ht : scanQueries tail = [])
    (hws : ∀ c ∈ (pairs.get ⟨i, hi⟩).2, isSpace c = true) :
    (extract (assemble pairs tail)).queries.get? i = some [] ∧
    (extract (assemble pairs tail)).queries.length = pairs.length := by
  have h := extract_assemble_queries pairs tail hp hs ht
  constructor
  · rw [h, List.get?_map, List.get?_eq_get hi]
    simp only [Option.map_some']
    rw [trim_eq_nil _ hws]
  · rw [h, List.length_map]

/-- Witness for C10: the second pair carries a whitespace-only span and
still occupies position 1 of the queries list, as the empty string. -/
theorem extract_whitespace_span_witness :
    (extract (assemble
        [("intro ".data, "q1".data), ("\n".data, "  \n ".data)] [])).queries.get? 1
      = some [] ∧
    (extract (assemble
        [("intro ".data, "q1".data), ("\n".data, "  \n ".data)] [])).queries.length
      = [("intro ".data, "q1".data), ("\n".data, "  \n ".data)].length :=
  extract_whitespace_span _ [] 1 (by decide) (by decide) (by decide) rfl (by decide)

/-! ### Claim theorems about the session flow -/

/-- Every turn of a history extended with one user turn keeps roles away
from `system` when the original history had no system turn. -/
theorem newMsgToHistory_no_system (inp : List Char) (h : List Turn)
    (hsys : ∀ t ∈ h, t.role ≠ Role.system) :
    ∀ t ∈ newMsgToHistory inp h, t.role ≠ Role.system := by
  intro t ht
  unfold newMsgToHistory at ht
  rcases List.mem_append.mp ht with h1 | h1
  · exact hsys t h1
  · rcases List.mem_singleton.mp h1 with rfl
    intro hcon
    exact Role.noConfusion hcon

/-- The history produced by the commit phase is either the pre-commit
history or that history extended by a single assistant turn. -/
theorem commitResponse_history (st : SessionState) (h1 : List Turn) (uh : Option (List Turn)) :
    (commitResponse st h1 uh).history = h1 ∨
    (∃ t0, (commitResponse st h1 uh).history = h1 ++ [t0] ∧ t0.role = Role.assistant) := by
  unfold commitResponse
  rcases uh with _ | l
  · exact Or.inl rfl
  · rcases hl : l.getLast? with _ | t0
    · simp only [hl]
      exact Or.inl (by trivial)
    · simp only [hl]
      by_cases hrole : t0.role = Role.assistant
      · rw [if_pos hrole]
        exact Or.inr ⟨t0, rfl, hrole⟩
      · rw [if_neg hrole]
        exact Or.inl (by trivial)

/-- C3: the per-request payload places exactly one system turn first,
carrying the given instruction; every other payload turn is a non-system
turn; those turns form a sublist of the retained history (original
chronological order) containing every retained non-system turn; and the
synthesized system turn is never persisted — a submission never adds a
system turn to the retained history. -/
theorem payload_single_system_first (s : List Char) (h : List Turn)
    (st : SessionState) (inp : List Char) (oc : GenOutcome)
    (hsys : ∀ t ∈ st.history, t.role ≠ Role.system) :
    (api_call_history s h).head? = some { role := Role.system, content := s } ∧
    (∀ t ∈ (api_call_history s h).tail, t.role ≠ Role.system) ∧
    (api_call_history s h).tail.Sublist h ∧
    (∀ t ∈ h, t.role ≠ Role.system → t ∈ (api_call_history s h).tail) ∧
    (api_call_history s h).countP (fun t => t.role == Role.system) = 1 ∧
    (∀ t ∈ (submitStep st inp oc).history, t.role ≠ Role.system) := by
  refine ⟨rfl, ?_, ?_, ?_, ?_, ?_⟩
  · intro t ht
    have hm := List.mem_filter.mp ht
    simpa using hm.2
  · exact List.filter_sublist _
  · intro t ht hrole
    exact List.mem_filter.mpr ⟨ht, by simpa using hrole⟩
  · show List.countP (fun t => t.role == Role.system)
      ({ role := Role.system, content := s } ::
        h.filter (fun t => !(t.role == Role.system))) = 1
    rw [List.countP_cons]
    have h0 : List.countP (fun t => t.role == Role.system)
        (h.filter (fun t => !(t.role == Role.system))) = 0 := by
      rw [List.countP_eq_zero]
      intro a ha
      have hm := (List.mem_filter.mp ha).2
      simpa using hm
    rw [h0]
    simp
  · intro t ht
    have hh1 := newMsgToHistory_no_system inp st.history hsys
    unfold submitStep at ht
    rcases commitResponse_history st (newMsgToHistory inp st.history)
        (generateModel
          (api_call_history (composePrompt st.search_platform st.num_variations)
            (newMsgToHistory inp st.history)) oc) with hcase | ⟨t0, hcase, hrole⟩
    · rw [hcase] at ht
      exact hh1 t ht
    · rw [hcase] at ht
      rcases List.mem_append.mp ht with h1 | h1
      · exact hh1 t h1
      · rcases List.mem_singleton.mp h1 with rfl
        rw [hrole]
        intro hcon
        exact Role.noConfusion hcon

/-- Witness for C3 at a concrete retained history containing a stray
system turn, and a concrete successful submission on an empty session. -/
theorem payload_single_system_first_witness :
    (api_call_history "sys".data
        [{ role := Role.user, content := "u".data },
          { role := Role.system, content := "stray".data },
          { role := Role.assistant, content := "a".data }]).head?
      = some { role := Role.system, content := "sys".data } ∧
    (∀ t ∈ (api_call_history "sys".data
        [{ role := Role.user, content := "u".data },
          { role := Role.system, content := "stray".data },
          { role := Role.assistant, content := "a".data }]).tail, t.role ≠ Role.system) ∧
    (api_call_history "sys".data
        [{ role := Role.user, content := "u".data },
          { role := Role.system, content := "stray".data },
          { role := Role.assistant, content := "a".data }]).tail.Sublist
      [{ role := Role.user, content := "u".data },
        { role := Role.system, content := "stray".data },
        { role := Role.assistant, content := "a".data }] ∧
    (∀ t ∈ [{ role := Role.user, content := "u".data },
        { role := Role.system, content := "stray".data },
        { role := Role.assistant, content := "a".data }], t.role ≠ Role.system →
      t ∈ (api_call_history "sys".data
        [{ role := Role.user, content := "u".data },
          { role := Role.system, content := "stray".data },
          { role := Role.assistant, content := "a".data }]).tail) ∧
    (api_call_history "sys".data
        [{ role := Role.user, content := "u".data },
          { role := Role.system, content := "stray".data },
          { role := Role.assistant, content := "a".data }]).countP
      (fun t => t.role == Role.system) = 1 ∧
    (∀ t ∈ (submitStep
        { history := [], latest_explanation := [], query_variations := [],
          search_platform := Platform.JSTOR, num_variations := 1 }
        "hi".data (GenOutcome.success "ok".data)).history, t.role ≠ Role.system) :=
  payload_single_system_first "sys".data
    [{ role := Role.user, content := "u".data },
      { role := Role.system, content := "stray".data },
      { role := Role.assistant, content := "a".data }]
    { history := [], latest_explanation := [], query_variations := [],
      search_platform := Platform.JSTOR, num_variations := 1 }
    "hi".data (GenOutcome.success "ok".data) (by decide)

/-- C2: with a prior assistant turn in the retained history, a failed
generation call is mis-detected as a success: `generate` pops the pending
user turn from the temporary payload, leaving the old assistant turn last,
so the commit phase appends a duplicate of that stale assistant turn to
the retained history and recomputes the extraction from its text.  The
just-submitted user turn is indeed retained, but the stored extraction is
NOT cleared to empty, contradicting the claim (and the code's own comment
that the branch runs only if the call was successful). -/
theorem generation_failure_keeps_stale_extraction :
    (submitStep
        { history := [{ role := Role.user, content := "u1".data },
            { role := Role.assistant, content := "Exp\n<query>old</query>".data }],
          latest_explanation := "Exp".data,
          query_variations := ["old".data],
          search_platform := Platform.JSTOR,
          num_variations := 2 }
        "u2".data GenOutcome.failure).query_variations = ["old".data] ∧
    (submitStep
        { history := [{ role := Role.user, content := "u1".data },
            { role := Role.assistant, content := "Exp\n<query>old</query>".data }],
          latest_explanation := "Exp".data,
          query_variations := ["old".data],
          search_platform := Platform.JSTOR,
          num_variations := 2 }
        "u2".data GenOutcome.failure).history
      = [{ role := Role.user, content := "u1".data },
          { role := Role.assistant, content := "Exp\n<query>old</query>".data },
          { role := Role.user, content := "u2".data },
          { role := Role.assistant, content := "Exp\n<query>old</query>".data }] := by
  decide

/-- C5 counterexample: a submission with variation count 11 is not
rejected — there is no InvalidParameter failure anywhere in the flow; the
generation call proceeds and its successful result is committed. -/
theorem variation_count_11_not_rejected :
    (submitStep
        { history := [], latest_explanation := [], query_variations := [],
          search_platform := Platform.JSTOR, num_variations := 11 }
        "topic".data (GenOutcome.success "resp".data)).history
      = [{ role := Role.user, content := "topic".data },
          { role := Role.assistant, content := "resp".data }] := by
  decide

/-- C5 (amended): the variation count is kept inside [1,10] by the slider
control, and the submission flow performs no validation of the stored
count — for any count (including 11) the generation call is made and a
successful result committed with the user and assistant turns appended. -/
theorem slider_bounds_and_no_count_validation (n : Nat) (st : SessionState)
    (inp r : List Char) :
    1 ≤ num_variations_slider n ∧ num_variations_slider n ≤ 10 ∧
    (submitStep st inp (GenOutcome.success r)).history
      = st.history ++ [{ role := Role.user, content := inp },
          { role := Role.assistant, content := r }] := by
  refine ⟨?_, ?_, ?_⟩
  · unfold num_variations_slider
    omega
  · unfold num_variations_slider
    omega
  · simp [submitStep, generateModel, commitResponse, newMsgToHistory, List.getLast?_concat]

/-- C6 counterexample: the append operation `newMsgToHistory` performs no
validation at all — applied to empty text it appends an empty user turn,
so "empty text is rejected and never appended" is not a property of the
append operation, and no EmptyInput failure value exists in the code. -/
theorem newMsgToHistory_appends_empty :
    newMsgToHistory [] [] = [{ role := Role.user, content := [] }] := rfl

/-- C6 (amended): an empty (or absent) chat submission is silently skipped
by the input guard: the session state is left completely unchanged — no
user turn is appended and no generation call is committed — and no failure
of any kind is signalled. -/
theorem empty_submission_ignored (st : SessionState) (oc : GenOutcome) :
    handleInput st (some []) oc = st ∧ handleInput st none oc = st :=
  ⟨rfl, rfl⟩

/-- C9: changing the selected platform to a different one always yields an
empty history, an empty explanation and an empty queries list, regardless
of the prior session state, and records the new platform. -/
theorem changePlatform_resets (st : SessionState) (p : Platform)
    (h : p ≠ st.search_platform) :
    (changePlatform st p).history = [] ∧
    (changePlatform st p).latest_explanation = [] ∧
    (changePlatform st p).query_variations = [] ∧
    (changePlatform st p).search_platform = p := by
  unfold changePlatform
  rw [if_pos h]
  exact ⟨rfl, rfl, rfl, rfl⟩

/-- Witness for C9 on a concrete non-trivial session switching from JSTOR
to Google Scholar. -/
theorem changePlatform_resets_witness :
    (changePlatform
        { history := [{ role := Role.user, content := "u".data },
            { role := Role.assistant, content := "a".data }],
          latest_explanation := "old".data,
          query_variations := ["q".data],
          search_platform := Platform.JSTOR,
          num_variations := 3 } Platform.GoogleScholar).history = [] ∧
    (changePlatform
        { history := [{ role := Role.user, content := "u".data },
            { role := Role.assistant, content := "a".data }],
          latest_explanation := "old".data,
          query_variations := ["q".data],
          search_platform := Platform.JSTOR,
          num_variations := 3 } Platform.GoogleScholar).latest_explanation = [] ∧
    (changePlatform
        { history := [{ role := Role.user, content := "u".data },
            { role := Role.assistant, content := "a".data }],
          latest_explanation := "old".data,
          query_variations := ["q".data],
          search_platform := Platform.JSTOR,
          num_variations := 3 } Platform.GoogleScholar).query_variations = [] ∧
    (changePlatform
        { history := [{ role := Role.user, content := "u".data },
            { role := Role.assistant, content := "a".data }],
          latest_explanation := "old".data,
          query_variations := ["q".data],
          search_platform := Platform.JSTOR,
          num_variations := 3 } Platform.GoogleScholar).search_platform
      = Platform.GoogleScholar :=
  changePlatform_resets _ _ (by decide)
